import Mathlib

set_option maxRecDepth 40000
set_option maxHeartbeats 1000000
set_option synthInstance.maxSize 65536
set_option linter.deprecated false

unseal Rat.add Rat.sub Rat.mul Rat.inv Rat.ofScientific

/-!
Shallow embedding of the repository's CSV ingestion and statistical-profiling
engine (`parseCSV` in `services/csvParser`-style module) and theorems settling
the specification claims about it.

Machine floating-point numbers are modelled as exact rationals.  At every
threshold comparison performed by the code (`> 0.8`, `> 0.6`, `> 0.2 * limit`,
`* 0.25` / `* 0.5` / `* 0.75` with `Math.floor`, histogram bin edges) the
IEEE-double and exact-rational comparisons agree on the integer ranges the
code can produce (counts bounded by the 2000-row sample window), so the
rational model is faithful there.
-/

/-! ## Models of the JavaScript host primitives used by the source -/

/-- Characters the host `trim()` removes at the ends of the string shapes the
profiler meets (ASCII whitespace; the host also strips rarer Unicode spaces,
on which no claim depends). -/
def isTrimmedChar (c : Char) : Bool := c = ' ' ∨ c = '\t' ∨ c = '\n' ∨ c = '\r'

/-- Whitespace trim on a character list. -/
def trimChars (cs : List Char) : List Char :=
  ((cs.dropWhile isTrimmedChar).reverse.dropWhile isTrimmedChar).reverse

/-- Model of the host `String.prototype.trim`. -/
def jsTrim (s : String) : String := String.mk (trimChars s.data)

/-- Decimal value of a digit character. -/
def digitVal (c : Char) : Nat := c.toNat - 48

/-- Value of a list of decimal digit characters. -/
def digitsToNat (ds : List Char) : Nat :=
  ds.foldl (fun n c => 10 * n + digitVal c) 0

/-- Exponent part of the JavaScript numeric literal grammar: consumes an
optional `e`/`E` exponent and requires the end of input. -/
def parseExponent (sign : ℚ) (mantissa : ℚ) (cs : List Char) : Option ℚ :=
  match cs with
  | [] => some (sign * mantissa)
  | c :: rest =>
    if c = 'e' ∨ c = 'E' then
      let signRest : Int × List Char :=
        match rest with
        | '+' :: r => (1, r)
        | '-' :: r => (-1, r)
        | _ => (1, rest)
      let eDigits := signRest.2.takeWhile Char.isDigit
      let rest3 := signRest.2.dropWhile Char.isDigit
      if eDigits = [] ∨ rest3 ≠ [] then none
      else some (sign * mantissa * (10 : ℚ) ^ (signRest.1 * (digitsToNat eDigits : Int)))
    else none

/-- Model of the host `Number(string)` conversion on the string shapes the
profiler meets: surrounding whitespace, optional sign, decimal mantissa with
optional fraction, optional exponent; the empty (all-blank) string converts
to `0`.  Returns `none` exactly where `Number` yields `NaN`.  Host-specific
extras (hex/octal/binary literals, `Infinity`) are outside the model; no
claim depends on them. -/
def jsNumber? (s : String) : Option ℚ :=
  let cs := trimChars s.data
  if cs = [] then some 0
  else
    let signCs : ℚ × List Char :=
      match cs with
      | '+' :: rest => (1, rest)
      | '-' :: rest => (-1, rest)
      | _ => (1, cs)
    let intDigits := signCs.2.takeWhile Char.isDigit
    let cs2 := signCs.2.dropWhile Char.isDigit
    let fracCs : List Char × List Char :=
      match cs2 with
      | '.' :: rest => (rest.takeWhile Char.isDigit, rest.dropWhile Char.isDigit)
      | _ => ([], cs2)
    if intDigits = [] ∧ fracCs.1 = [] then none
    else
      parseExponent signCs.1
        ((digitsToNat intDigits : ℚ) + (digitsToNat fracCs.1 : ℚ) / (10 : ℚ) ^ fracCs.1.length)
        fracCs.2

/-- Gregorian leap-year rule. -/
def isLeapYear (y : Nat) : Bool := (y % 4 == 0 && y % 100 != 0) || y % 400 == 0

/-- Number of days in month `m` of year `y`. -/
def daysInMonth (y m : Nat) : Nat :=
  if m = 2 then (if isLeapYear y then 29 else 28)
  else if m = 4 ∨ m = 6 ∨ m = 9 ∨ m = 11 then 30
  else 31

/-- Days in year `y` strictly before the first day of month `m`. -/
def daysBeforeMonth (y m : Nat) : Nat :=
  (List.range (m - 1)).foldl (fun acc k => acc + daysInMonth y (k + 1)) 0

/-- Days from 0001-01-01 (proleptic Gregorian) to the civil date `y-m-d`. -/
def civilDays (y m d : Nat) : Nat :=
  365 * (y - 1) + (y - 1) / 4 - (y - 1) / 100 + (y - 1) / 400 + daysBeforeMonth y m + (d - 1)

/-- Model of the host `Date.parse` restricted to calendar-valid ISO
`YYYY-MM-DD` strings (year at least 1), returning the UTC millisecond
timestamp.  The host accepts further textual formats; no claim in this
development depends on them, and every classifier theorem below treats the
date parse only through success/failure of this function. -/
def jsDate? (s : String) : Option ℚ :=
  match s.data with
  | [y1, y2, y3, y4, '-', m1, m2, '-', d1, d2] =>
    if y1.isDigit && y2.isDigit && y3.isDigit && y4.isDigit &&
        m1.isDigit && m2.isDigit && d1.isDigit && d2.isDigit then
      let y := digitVal y1 * 1000 + digitVal y2 * 100 + digitVal y3 * 10 + digitVal y4
      let m := digitVal m1 * 10 + digitVal m2
      let d := digitVal d1 * 10 + digitVal d2
      if 1 ≤ y ∧ 1 ≤ m ∧ m ≤ 12 ∧ 1 ≤ d ∧ d ≤ daysInMonth y m then
        some (86400000 * ((civilDays y m d : ℚ) - (civilDays 1970 1 1 : ℚ)))
      else none
    else none
  | _ => none

/-! ## Line splitting and dialect detection -/

/-- Splitting on the source's `/\r\n|\n/` line separator: `\r\n` and `\n`
both end a line, a lone `\r` does not. -/
def splitLinesAux : List Char → List Char → List String
  | [], acc => [String.mk acc.reverse]
  | '\r' :: '\n' :: rest, acc => String.mk acc.reverse :: splitLinesAux rest []
  | '\n' :: rest, acc => String.mk acc.reverse :: splitLinesAux rest []
  | c :: rest, acc => splitLinesAux rest (c :: acc)

/-- Source: `text.split(/\r\n|\n/)`. -/
def splitLinesRaw (text : String) : List String := splitLinesAux text.data []

/-- Source: `text.split(/\r\n|\n/).filter(l => l.trim() !== '')`. -/
def nonBlankLines (text : String) : List String :=
  (splitLinesRaw text).filter (fun l => jsTrim l ≠ "")

/-- Candidate delimiters, in the order the source scans them. -/
def candidateDelims : List Char := [',', ';', '\t', '|']

/-- Naive occurrence count of a single-character delimiter in a line
(source: `firstLine.split(d).length - 1`). -/
def countOcc (d : Char) (line : String) : Nat := line.data.count d

/-- Source delimiter detection: fold over the candidates keeping the first
candidate whose count strictly exceeds the running maximum (initially `','`
with count `0`). -/
def detectDelimiter (line : String) : Char :=
  (candidateDelims.foldl
    (fun best d =>
      let count := countOcc d line
      if best.2 < count then (d, count) else best)
    (',', 0)).1

/-! ## Quote-aware tokenizer -/

/-- Number of double-quote characters in a character list. -/
def quoteCount (cs : List Char) : Nat := cs.count '"'

/-- Character-level semantics of the source's split regex
`delim(?=(?:(?:[^"]*"){2})*[^"]*$)`: an occurrence of the delimiter is a
separator exactly when the number of quote characters to its right in the
remaining line is even. -/
def splitFields (d : Char) : List Char → List Char → List (List Char)
  | [], acc => [acc.reverse]
  | c :: rest, acc =>
    if c = d ∧ quoteCount rest % 2 = 0 then
      acc.reverse :: splitFields d rest []
    else
      splitFields d rest (c :: acc)

/-- Number of separator occurrences of `d` in a line, by the same
even-quotes-to-the-right rule. -/
def numSeps (d : Char) : List Char → Nat
  | [] => 0
  | c :: rest =>
    (if c = d ∧ quoteCount rest % 2 = 0 then 1 else 0) + numSeps d rest

/-- Whether position `i` of the line is a separator for the source's split
regex: the character there is the delimiter and the number of quotes strictly
to its right is even. -/
def isSepPos (d : Char) (line : List Char) (i : Nat) : Bool :=
  line.get? i == some d && quoteCount (line.drop (i + 1)) % 2 == 0

/-- Source: strip one leading and one trailing double quote
(`.replace(/^"|"$/g, '')`). -/
def stripOuterQuotes (s : String) : String :=
  let cs := s.data
  let cs1 := if cs.head? = some '"' then cs.tail else cs
  let cs2 := if cs1.getLast? = some '"' then cs1.dropLast else cs1
  String.mk cs2

/-- Source: each raw field is trimmed, then outer quotes are stripped. -/
def cleanField (s : String) : String := stripOuterQuotes (jsTrim s)

/-- Source `splitLine`: split on unquoted delimiters, trim and unquote each
field. -/
def splitLine (d : Char) (line : String) : List String :=
  (splitFields d line.data []).map (fun cs => cleanField (String.mk cs))

/-! ## Data model -/

/-- Column types of the result shape (`boolean` and `unknown` are reserved
variants the classifier never assigns). -/
inductive ColType
  | numeric
  | string
  | date
  | boolean
  | unknown
deriving DecidableEq, Repr

/-- One histogram bin.  The source labels a bin by a formatted rendering of
its start edge (`toFixed(1)` for numbers, the ISO day for dates); the model
carries the raw start edge, collapsing the presentation-only formatting. -/
structure HistBin where
  start : ℚ
  value : Nat
deriving DecidableEq, Repr

/-- Type-conditioned aggregate bundle (all fields optional, as in the
source's `ColumnStats`). -/
structure ColumnStats where
  min? : Option ℚ
  max? : Option ℚ
  mean? : Option ℚ
  quantiles? : Option (ℚ × ℚ × ℚ)
  histogram? : Option (List HistBin)
  topValues? : Option (List (String × Nat))
deriving DecidableEq, Repr

/-- Per-column profiling result (the source's `example` field is spelled
`exampleValue` because `example` is a Lean keyword). -/
structure ColumnInfo where
  name : String
  type : ColType
  missing : Nat
  unique : Nat
  exampleValue : Option String
  stats : ColumnStats
deriving DecidableEq, Repr

/-- Whole-file profiling result.  The preview rows are the source's
`row[h] = values[i]` objects, modelled as ordered (header, value) pairs; the
`fileName` field is threaded through unchanged from the caller and carries
no behaviour, so it is not modelled. -/
structure DatasetSummary where
  rowCount : Nat
  columns : List ColumnInfo
  preview : List (List (String × Option String))
deriving DecidableEq, Repr

/-- The terminal errors `parseCSV` can throw. -/
inductive ParseError
  | encoding
  | insufficientData
  | columnDetection
  | integrity (malformed : Nat) (limit : Nat) (expected : Nat)
deriving DecidableEq, Repr

/-! ## Column analysis -/

/-- Minimum of a list of rationals (`Math.min(...)`; the empty case is
unreachable wherever the source takes it). -/
def listMin : List ℚ → ℚ
  | [] => 0
  | x :: xs => xs.foldl min x

/-- Maximum of a list of rationals (`Math.max(...)`). -/
def listMax : List ℚ → ℚ
  | [] => 0
  | x :: xs => xs.foldl max x

/-- The numeric parses of the sampled values: source pushes `Number(v)` for
every value with `!isNaN(Number(v)) && v !== ''`. -/
def numericParsedOf (vs : List String) : List ℚ :=
  vs.filterMap (fun v => if v = "" then none else jsNumber? v)

/-- The date parses of the sampled values: source pushes `Date.parse(v)` for
every value with `v.length > 5`, failing the numeric parse, whose date parse
succeeds. -/
def dateParsedOf (vs : List String) : List ℚ :=
  vs.filterMap (fun v =>
    if 5 < v.length ∧ (jsNumber? v).isNone then jsDate? v else none)

/-- Predicate form of the date-parse count used by the classifier. -/
def dateOk (v : String) : Bool :=
  decide (5 < v.length) && (jsNumber? v).isNone && (jsDate? v).isSome

/-- Quantile index `Math.floor(length * p)` of the source (the float
products `n * 0.25`, `n * 0.5`, `n * 0.75` are exact dyadics, so the
rational floor is the float floor). -/
def quantileIdx (n : Nat) (p : ℚ) : Nat := ⌊(n : ℚ) * p⌋₊

/-- Sorted-sample quantiles by direct lower index (out-of-range indexing
cannot occur on the nonempty samples the source feeds this).  The host's
`sort((a,b) => a-b)` is a stable sort under a total preorder comparator, so
it coincides with any stable sort; insertion sort is used for kernel
computability. -/
def quantilesOf (xs : List ℚ) : ℚ × ℚ × ℚ :=
  let sorted := xs.insertionSort (· ≤ ·)
  (sorted.getD (quantileIdx xs.length 0.25) 0,
   sorted.getD (quantileIdx xs.length 0.5) 0,
   sorted.getD (quantileIdx xs.length 0.75) 0)

/-- The source's 10-bin equal-width histogram: bin `i` counts values `n`
with `rangeStart <= n` and `n < rangeEnd` (`n <= rangeEnd` for the last
bin); a zero-width range produces the single full-count bin. -/
def histBins (xs : List ℚ) : List HistBin :=
  let mn := listMin xs
  let mx := listMax xs
  let binCount : Nat := 10
  let step : ℚ := (mx - mn) / (binCount : ℚ)
  if 0 < step then
    (List.range binCount).map (fun (i : Nat) =>
      let rangeStart : ℚ := mn + (i : ℚ) * step
      let rangeEnd : ℚ := mn + ((i : ℚ) + 1) * step
      { start := rangeStart
        value := (xs.filter (fun n =>
          decide (rangeStart ≤ n) &&
            (if i = binCount - 1 then decide (n ≤ rangeEnd) else decide (n < rangeEnd)))).length })
  else [{ start := mn, value := xs.length }]

/-- Numeric-column aggregate bundle. -/
def numericStats (parsed : List ℚ) : ColumnStats :=
  { min? := some (listMin parsed)
    max? := some (listMax parsed)
    mean? := some (parsed.sum / (parsed.length : ℚ))
    quantiles? := some (quantilesOf parsed)
    histogram? := some (histBins parsed)
    topValues? := none }

/-- Date-column aggregate bundle (timestamps; no mean/quantiles). -/
def dateStats (parsed : List ℚ) : ColumnStats :=
  { min? := some (listMin parsed)
    max? := some (listMax parsed)
    mean? := none
    quantiles? := none
    histogram? := some (histBins parsed)
    topValues? := none }

/-- Frequency tally in first-encounter order (`counts[v] = (counts[v]||0)+1`;
the host object's integer-like-key reordering in `Object.entries` only
permutes entries of equal count relative to this model, which the stable
value-descending sort can keep in either order — no claim depends on it). -/
def bumpCount : List (String × Nat) → String → List (String × Nat)
  | [], v => [(v, 1)]
  | (k, c) :: rest, v =>
    if k = v then (k, c + 1) :: rest else (k, c) :: bumpCount rest v

/-- Tally of a sample in encounter order. -/
def tally (vs : List String) : List (String × Nat) := vs.foldl bumpCount []

/-- Display truncation of long category names
(`name.substring(0, 15) + '...'`). -/
def truncateName (s : String) : String :=
  if 15 < s.length then String.mk (s.data.take 15) ++ "..." else s

/-- String-column aggregate bundle: top 20 categories by descending count.
The host's `sort((a,b) => b[1]-a[1])` is stable under a total preorder
comparator, so it coincides with this stable insertion sort. -/
def stringStats (rawValues : List String) : ColumnStats :=
  let topValues :=
    (((tally rawValues).insertionSort (fun a b => b.2 ≤ a.2)).take 20).map
      (fun p => (truncateName p.1, p.2))
  { min? := none, max? := none, mean? := none, quantiles? := none,
    histogram? := none, topValues? := some topValues }

/-- Per-column analysis: missing count, distinct count, type classification
by the 0.8 / 0.6 strict thresholds, and type-conditioned stats. -/
def analyzeColumn (header : String) (rawValues : List String) (sampleLimit : Nat) : ColumnInfo :=
  let missingCount := sampleLimit - rawValues.length
  let numericParsed := numericParsedOf rawValues
  let dateParsed := dateParsedOf rawValues
  let isNumeric :=
    decide (0 < rawValues.length ∧
      (0.8 : ℚ) < (numericParsed.length : ℚ) / (rawValues.length : ℚ))
  let isDate :=
    !isNumeric && decide (0 < rawValues.length ∧
      (0.6 : ℚ) < (dateParsed.length : ℚ) / (rawValues.length : ℚ))
  { name := header
    type := if isNumeric then .numeric else if isDate then .date else .string
    missing := missingCount
    unique := rawValues.dedup.length
    exampleValue := rawValues.head?
    stats :=
      if isNumeric then numericStats numericParsed
      else if isDate then dateStats dateParsed
      else stringStats rawValues }

/-! ## The whole pipeline -/

/-- The Unicode replacement character whose presence fails the encoding
check. -/
def replacementChar : Char := Char.ofNat 0xFFFD

/-- Malformed-row count of the structural integrity scan: the source loop
`for (i = 1; i < min(lines.length, 100); i++)` visits the rows at indices
`1 .. min(lines.length, 100) - 1`. -/
def malformedCountOf (delim : Char) (lines : List String) (expected : Nat) : Nat :=
  ((lines.drop 1).take (min lines.length 100 - 1)).countP
    (fun l => decide ((splitLine delim l).length ≠ expected))

/-- Non-empty sampled values of column `idx` within the sampled rows
(source: `rowValues[index]` pushed when defined and nonempty). -/
def collectColumn (delim : Char) (rows : List String) (idx : Nat) : List String :=
  rows.filterMap (fun line =>
    match (splitLine delim line).get? idx with
    | some v => if v = "" then none else some v
    | none => none)

/-- The per-column results, one per header position. -/
def buildColumns (delim : Char) (headers : List String) (dataLines : List String) :
    List ColumnInfo :=
  let sampleLimit := min dataLines.length 2000
  headers.enum.map (fun p =>
    analyzeColumn p.2 (collectColumn delim (dataLines.take sampleLimit) p.1) sampleLimit)

/-- The bounded preview: first 50 data rows as (header, value) rows. -/
def buildPreview (delim : Char) (headers : List String) (dataLines : List String) :
    List (List (String × Option String)) :=
  (dataLines.take 50).map (fun line =>
    let values := splitLine delim line
    headers.enum.map (fun p => (p.2, values.get? p.1)))

/-- The profiling engine: encoding check, line split, dialect detection,
header tokenization, structural integrity gate, then per-column analysis and
assembly, exactly as the source `parseCSV` (minus the file-reader glue). -/
def parseCSV (text : String) : Except ParseError DatasetSummary :=
  if text.data.contains replacementChar then
    .error .encoding
  else
    let lines := nonBlankLines text
    if lines.length < 2 then .error .insufficientData
    else
      let firstLine := lines.headD ""
      let delim := detectDelimiter firstLine
      let headers := splitLine delim firstLine
      if headers.length < 1 then .error .columnDetection
      else
        let validationLimit := min lines.length 100
        let malformedCount := malformedCountOf delim lines headers.length
        if ((validationLimit : ℚ) * 0.2 : ℚ) < (malformedCount : ℚ) then
          .error (.integrity malformedCount validationLimit headers.length)
        else
          let dataLines := lines.drop 1
          .ok { rowCount := dataLines.length
                columns := buildColumns delim headers dataLines
                preview := buildPreview delim headers dataLines }

/-- Follows the specification's words for claim C9 (`parse all sample values
to numbers; compute min, max, arithmetic mean`): statistics over the numeric
parses of ALL sampled values, defined only when every sampled value has a
numeric parse. -/
def specStatsAllValues (vs : List String) : Option (ℚ × ℚ × ℚ) :=
  (vs.mapM jsNumber?).map (fun ns => (listMin ns, listMax ns, ns.sum / (ns.length : ℚ)))

/-- A 100-line input (header of 3 fields plus 99 data rows) of which exactly
20 rows are malformed. -/
def ex20Text : String :=
  String.intercalate "\n" ("a,b,c" :: (List.replicate 79 "1,2,3" ++ List.replicate 20 "1,2"))

/-- A 100-line input (header of 3 fields plus 99 data rows) of which exactly
21 rows are malformed. -/
def ex21Text : String :=
  String.intercalate "\n" ("a,b,c" :: (List.replicate 78 "1,2,3" ++ List.replicate 21 "1,2"))

/-- Profiling outcomes can be compared for equality. -/
instance {ε α : Type} [DecidableEq ε] [DecidableEq α] : DecidableEq (Except ε α) := fun x y =>
  match x, y with
  | .error a, .error b =>
    if h : a = b then isTrue (by rw [h]) else isFalse (by simp [h])
  | .error _, .ok _ => isFalse (by simp)
  | .ok _, .error _ => isFalse (by simp)
  | .ok a, .ok b =>
    if h : a = b then isTrue (by rw [h]) else isFalse (by simp [h])

/-! ## Helper lemmas -/

/-- The tokenizer produces one more field than there are separator
occurrences. -/
theorem splitFields_length (d : Char) (cs : List Char) :
    ∀ acc, (splitFields d cs acc).length = 1 + numSeps d cs := by
  induction cs with
  | nil => intro acc; simp [splitFields, numSeps]
  | cons c rest ih =>
    intro acc
    by_cases h : c = d ∧ quoteCount rest % 2 = 0
    · simp [splitFields, numSeps, h, ih, Nat.add_comm]
    · simp [splitFields, numSeps, h, ih]

/-- The tokenizer never produces an empty field list. -/
theorem splitLine_length_pos (d : Char) (line : String) :
    1 ≤ (splitLine d line).length := by
  simp [splitLine, splitFields_length]

/-- Dropping past a list's length plus one more element. -/
theorem drop_append_cons (pre post : List Char) (d : Char) :
    (pre ++ d :: post).drop (pre.length + 1) = post := by
  induction pre with
  | nil => simp
  | cons c rest ih => simp [ih]

/-- Reading the element straight after a prefix. -/
theorem get?_append_cons (pre post : List Char) (d : Char) :
    (pre ++ d :: post).get? pre.length = some d := by
  induction pre with
  | nil => simp
  | cons c rest ih => simpa using ih

/-- A delimiter with an odd number of quotes after it separates nothing:
deleting it leaves the separator count unchanged. -/
theorem numSeps_quoted_delim (d : Char) (pre post : List Char)
    (hd : d ≠ '"') (hpost : quoteCount post % 2 = 1) :
    numSeps d (pre ++ d :: post) = numSeps d (pre ++ post) := by
  induction pre with
  | nil => simp [numSeps, hpost]
  | cons c rest ih =>
    have hq : quoteCount (rest ++ d :: post) = quoteCount (rest ++ post) := by
      simp [quoteCount, List.count_append, List.count_cons, hd]
    simp only [List.cons_append, numSeps, List.append_eq, ih, hq]

/-! ## Claims -/

/-- C1: for the input text `a,b\n1,x\n2,y\n3,x\n`, `profile` succeeds with
detected delimiter `','`, `rowCount` 3, column `a` numeric with min 1, max 3,
mean 2, and column `b` string with `topValues` exactly
`[("x", 2), ("y", 1)]` in that order. -/
theorem c1_end_to_end_profile :
    detectDelimiter "a,b" = ',' ∧
    (parseCSV "a,b\n1,x\n2,y\n3,x\n").toOption.map (fun s =>
        (s.rowCount, s.columns.map (fun c =>
          (c.name, c.type, c.stats.min?, c.stats.max?, c.stats.mean?, c.stats.topValues?))))
      = some (3, [("a", ColType.numeric, some 1, some 3, some 2, none),
                  ("b", ColType.string, none, none, none, some [("x", 2), ("y", 1)])]) := by
  decide

/-- C8 counterexample: on the header `a;b;c|d|e` the candidates `';'` and
`'|'` tie for the highest occurrence count (2 each, the others 0), yet the
detector selects `';'`, not `','` — refuting the claim that a tie for the
highest count selects `','`. -/
theorem c8_delimiter_counterexample :
    countOcc ';' "a;b;c|d|e" = 2 ∧ countOcc '|' "a;b;c|d|e" = 2 ∧
    countOcc ',' "a;b;c|d|e" = 0 ∧ countOcc '\t' "a;b;c|d|e" = 0 ∧
    detectDelimiter "a;b;c|d|e" = ';' ∧ (';' : Char) ≠ ',' := by
  decide

/-- C10: tokenizing any line yields at least one field, so the header field
count is always at least 1 and `parseCSV` can never fail with the
column-detection error. -/
theorem c10_column_detection_unreachable :
    (∀ (d : Char) (line : String), 1 ≤ (splitLine d line).length) ∧
    (∀ text : String, parseCSV text ≠ Except.error ParseError.columnDetection) := by
  refine ⟨splitLine_length_pos, fun text => ?_⟩
  simp only [parseCSV]
  split
  · simp
  · split
    · simp
    · split
      · next h => exact absurd h (Nat.not_lt.mpr (splitLine_length_pos _ _))
      · split
        · simp
        · simp

/-- Length of a `filterMap` as a success count. -/
theorem length_filterMap_eq_countP {α β : Type} (f : α → Option β) (l : List α) :
    (l.filterMap f).length = l.countP (fun a => (f a).isSome) := by
  induction l with
  | nil => simp
  | cons a t ih =>
    cases h : f a <;> simp [List.filterMap_cons, h, List.countP_cons, ih]

/-- Pointwise-equal predicates count equally. -/
theorem countP_congr_on {α : Type} (l : List α) (p q : α → Bool)
    (h : ∀ a ∈ l, p a = q a) : l.countP p = l.countP q := by
  induction l with
  | nil => simp
  | cons a t ih =>
    simp [List.countP_cons, h a (List.mem_cons_self a t),
      ih (fun b hb => h b (List.mem_cons_of_mem a hb))]

/-- The classifier's type decision, unfolded. -/
theorem analyzeColumn_type (name : String) (vs : List String) (lim : Nat) :
    (analyzeColumn name vs lim).type =
      (if decide (0 < vs.length ∧
            (0.8 : ℚ) < ((numericParsedOf vs).length : ℚ) / (vs.length : ℚ)) then
        ColType.numeric
      else if (!decide (0 < vs.length ∧
              (0.8 : ℚ) < ((numericParsedOf vs).length : ℚ) / (vs.length : ℚ)) &&
            decide (0 < vs.length ∧
              (0.6 : ℚ) < ((dateParsedOf vs).length : ℚ) / (vs.length : ℚ))) then
        ColType.date
      else ColType.string) := rfl

/-- C3: a delimiter inside a matched quote pair is never a separator — it is
not a separator position, and deleting it does not change the field count —
and the example line splits into exactly two fields. -/
theorem c3_quote_safety :
    splitLine ',' "\"Smith, John\",34" = ["Smith, John", "34"] ∧
    ∀ (d : Char) (pre post : List Char), d ≠ '"' →
      quoteCount (pre ++ d :: post) % 2 = 0 →
      quoteCount pre % 2 = 1 →
      isSepPos d (pre ++ d :: post) pre.length = false ∧
      (splitLine d (String.mk (pre ++ d :: post))).length =
        (splitLine d (String.mk (pre ++ post))).length := by
  refine ⟨by decide, fun d pre post hd htot hpre => ?_⟩
  have hsum : quoteCount (pre ++ d :: post) = quoteCount pre + quoteCount post := by
    simp [quoteCount, List.count_append, List.count_cons, hd]
  have hpost : quoteCount post % 2 = 1 := by
    rw [hsum] at htot
    omega
  constructor
  · simp [isSepPos, get?_append_cons, drop_append_cons, hpost]
  · have h1 := numSeps_quoted_delim d pre post hd hpost
    simp [splitLine, splitFields_length, h1]

/-- C3 witness at a concrete quoted line. -/
theorem c3_quote_safety_witness :
    isSepPos ',' ['"', 'a', ',', 'b', '"'] 2 = false ∧
    (splitLine ',' (String.mk ['"', 'a', ',', 'b', '"'])).length =
      (splitLine ',' (String.mk ['"', 'a', 'b', '"'])).length :=
  c3_quote_safety.2 ',' ['"', 'a'] ['b', '"'] (by decide) (by decide) (by decide)

/-- C6: quantiles are taken at the zero-based indices `floor(n*0.25)`,
`floor(n*0.5)`, `floor(n*0.75)` of the ascending-sorted sample (no neighbour
averaging), and on `[1,...,10]` they are `3`, `6`, `8`. -/
theorem c6_quantile_rule :
    (∀ xs : List ℚ,
      quantilesOf xs =
        ((xs.insertionSort (· ≤ ·)).getD (xs.length / 4) 0,
         (xs.insertionSort (· ≤ ·)).getD (xs.length / 2) 0,
         (xs.insertionSort (· ≤ ·)).getD (3 * xs.length / 4) 0)) ∧
    quantilesOf [1, 2, 3, 4, 5, 6, 7, 8, 9, 10] = (3, 6, 8) := by
  constructor
  · intro xs
    have h25 : quantileIdx xs.length 0.25 = xs.length / 4 := by
      unfold quantileIdx
      rw [show (0.25 : ℚ) = 1 / 4 by norm_num, mul_one_div, Nat.floor_div_ofNat,
        Nat.floor_natCast]
    have h50 : quantileIdx xs.length 0.5 = xs.length / 2 := by
      unfold quantileIdx
      rw [show (0.5 : ℚ) = 1 / 2 by norm_num, mul_one_div, Nat.floor_div_ofNat,
        Nat.floor_natCast]
    have h75 : quantileIdx xs.length 0.75 = 3 * xs.length / 4 := by
      unfold quantileIdx
      rw [show (xs.length : ℚ) * 0.75 = ((3 * xs.length : ℕ) : ℚ) / 4 by push_cast; ring,
        Nat.floor_div_ofNat, Nat.floor_natCast]
    simp [quantilesOf, h25, h50, h75]
  · decide

/-- C4: on a nonempty sample free of empty strings the assigned type is
`numeric` iff strictly more than 80% of the values have a numeric parse,
else `date` iff strictly more than 60% of the values are over length 5,
fail the numeric parse and parse as dates, else `string`; an empty sample
is `string` with empty stats. -/
theorem c4_type_classifier :
    (∀ (vs : List String) (name : String) (lim : Nat),
      (∀ v ∈ vs, v ≠ "") → vs ≠ [] →
        (((analyzeColumn name vs lim).type = ColType.numeric) ↔
          (0.8 : ℚ) < (vs.countP (fun v => (jsNumber? v).isSome) : ℚ) / (vs.length : ℚ)) ∧
        (((analyzeColumn name vs lim).type = ColType.date) ↔
          (¬ ((0.8 : ℚ) < (vs.countP (fun v => (jsNumber? v).isSome) : ℚ) / (vs.length : ℚ)) ∧
            (0.6 : ℚ) < (vs.countP dateOk : ℚ) / (vs.length : ℚ))) ∧
        (((analyzeColumn name vs lim).type = ColType.string) ↔
          (¬ ((0.8 : ℚ) < (vs.countP (fun v => (jsNumber? v).isSome) : ℚ) / (vs.length : ℚ)) ∧
            ¬ ((0.6 : ℚ) < (vs.countP dateOk : ℚ) / (vs.length : ℚ))))) ∧
    (∀ (name : String) (lim : Nat),
      (analyzeColumn name [] lim).type = ColType.string ∧
      (analyzeColumn name [] lim).stats =
        { min? := none, max? := none, mean? := none, quantiles? := none,
          histogram? := none, topValues? := some [] }) := by
  refine ⟨fun vs name lim hne hvs => ?_, fun name lim => ⟨rfl, rfl⟩⟩
  have hlen : 0 < vs.length := List.length_pos.mpr hvs
  have hnum : (numericParsedOf vs).length = vs.countP (fun v => (jsNumber? v).isSome) := by
    rw [numericParsedOf, length_filterMap_eq_countP]
    refine countP_congr_on vs _ _ (fun v hv => ?_)
    simp [hne v hv]
  have hdate : (dateParsedOf vs).length = vs.countP dateOk := by
    rw [dateParsedOf, length_filterMap_eq_countP]
    refine countP_congr_on vs _ _ (fun v hv => ?_)
    by_cases h5 : 5 < v.length ∧ (jsNumber? v).isNone
    · simp [dateOk, h5, h5.1, h5.2]
    · rw [not_and_or] at h5
      rcases h5 with h5 | h5 <;> simp [dateOk, h5]
  rw [← hnum, ← hdate]
  by_cases hN : (0.8 : ℚ) < ((numericParsedOf vs).length : ℚ) / (vs.length : ℚ) <;>
    by_cases hD : (0.6 : ℚ) < ((dateParsedOf vs).length : ℚ) / (vs.length : ℚ) <;>
      simp [analyzeColumn_type, hN, hD, hlen]

/-- C4 witness at the all-numeric two-value sample. -/
theorem c4_type_classifier_witness :
    ((analyzeColumn "a" ["1", "2"] 2).type = ColType.numeric) ↔
      (0.8 : ℚ) < ((["1", "2"] : List String).countP (fun v => (jsNumber? v).isSome) : ℚ) /
        ((["1", "2"] : List String).length : ℚ) :=
  (c4_type_classifier.1 ["1", "2"] "a" 2 (by decide) (by decide)).1

/-- C9 counterexample: the sample `["1","2","3","4","5","junk"]` is
classified numeric (5/6 > 0.8) yet `"junk"` has no numeric parse, so the
spec-directed statistics over the parses of all sampled values do not exist,
while the code reports mean 3 — the mean over the five parseable values
only — and not `15/6`, the all-values mean under a zero-filling reading. -/
theorem c9_numeric_stats_counterexample :
    (analyzeColumn "c" ["1", "2", "3", "4", "5", "junk"] 6).type = ColType.numeric ∧
    jsNumber? "junk" = none ∧
    specStatsAllValues ["1", "2", "3", "4", "5", "junk"] = none ∧
    (analyzeColumn "c" ["1", "2", "3", "4", "5", "junk"] 6).stats.mean? = some 3 ∧
    (analyzeColumn "c" ["1", "2", "3", "4", "5", "junk"] 6).stats.mean? ≠
      some ((1 + 2 + 3 + 4 + 5 + 0 : ℚ) / 6) := by
  decide

/-- C9 amended: for a column assigned type numeric the stats bundle's min,
max and mean are the minimum, maximum and arithmetic mean of the numeric
parses of the successfully-parsing sampled values only (the source's
`numericParsed` list, which omits values whose numeric parse fails). -/
theorem c9_numeric_stats_amended :
    ∀ (vs : List String) (name : String) (lim : Nat),
      (analyzeColumn name vs lim).type = ColType.numeric →
        (analyzeColumn name vs lim).stats.min? = some (listMin (numericParsedOf vs)) ∧
        (analyzeColumn name vs lim).stats.max? = some (listMax (numericParsedOf vs)) ∧
        (analyzeColumn name vs lim).stats.mean? =
          some ((numericParsedOf vs).sum / ((numericParsedOf vs).length : ℚ)) := by
  intro vs name lim h
  rw [analyzeColumn_type] at h
  by_cases hb : (0 < vs.length ∧
      (0.8 : ℚ) < ((numericParsedOf vs).length : ℚ) / (vs.length : ℚ))
  · refine ⟨?_, ?_, ?_⟩ <;> simp [analyzeColumn, numericStats, hb]
  · exfalso
    rw [decide_eq_false hb] at h
    simp only [Bool.false_eq_true, if_false, Bool.not_false, Bool.true_and] at h
    split at h <;> simp_all

/-- C9 amended-claim witness at a one-value numeric column. -/
theorem c9_numeric_stats_amended_witness :
    (analyzeColumn "a" ["1"] 1).stats.min? = some (listMin (numericParsedOf ["1"])) ∧
    (analyzeColumn "a" ["1"] 1).stats.max? = some (listMax (numericParsedOf ["1"])) ∧
    (analyzeColumn "a" ["1"] 1).stats.mean? =
      some ((numericParsedOf ["1"]).sum / ((numericParsedOf ["1"]).length : ℚ)) :=
  c9_numeric_stats_amended ["1"] "a" 1 (by decide)

/-- C5: for a nonempty parsed sample with min < max the histogram has
exactly 10 equal-width bins, bin `i < 9` counts the values in
`[min+i*step, min+(i+1)*step)`, the last bin is closed on both ends up to
`max`, the maximum lies in no earlier bin's range but in the last bin's
range, and a zero-width range yields the single full-count bin. -/
theorem c5_histogram_bins :
    ∀ xs : List ℚ, xs ≠ [] →
      ((listMin xs < listMax xs →
        (histBins xs).length = 10 ∧
        (∀ i : Nat, i < 9 →
          (histBins xs).get? i = some
            { start := listMin xs + (i : ℚ) * ((listMax xs - listMin xs) / 10),
              value := (xs.filter (fun n =>
                decide (listMin xs + (i : ℚ) * ((listMax xs - listMin xs) / 10) ≤ n) &&
                decide (n < listMin xs + ((i : ℚ) + 1) * ((listMax xs - listMin xs) / 10)))).length }) ∧
        ((histBins xs).get? 9 = some
            { start := listMin xs + (9 : ℚ) * ((listMax xs - listMin xs) / 10),
              value := (xs.filter (fun n =>
                decide (listMin xs + (9 : ℚ) * ((listMax xs - listMin xs) / 10) ≤ n) &&
                decide (n ≤ listMax xs))).length }) ∧
        (∀ i : Nat, i < 9 →
          ¬ (listMin xs + (i : ℚ) * ((listMax xs - listMin xs) / 10) ≤ listMax xs ∧
             listMax xs < listMin xs + ((i : ℚ) + 1) * ((listMax xs - listMin xs) / 10))) ∧
        (listMin xs + (9 : ℚ) * ((listMax xs - listMin xs) / 10) ≤ listMax xs ∧
         listMax xs ≤ listMin xs + ((9 : ℚ) + 1) * ((listMax xs - listMin xs) / 10))) ∧
      (listMin xs = listMax xs → histBins xs = [{ start := listMin xs, value := xs.length }])) := by
  intro xs hne
  constructor
  · intro hlt
    have hstep : 0 < (listMax xs - listMin xs) / 10 := by
      apply div_pos (by linarith) (by norm_num)
    have hend10 : listMin xs + 10 * ((listMax xs - listMin xs) / 10) = listMax xs := by
      ring
    have hif : (0 : ℚ) < (listMax xs - listMin xs) / ((10 : ℕ) : ℚ) := by
      push_cast
      exact hstep
    refine ⟨?_, ?_, ?_, ?_, ?_⟩
    · simp only [histBins]
      rw [if_pos hif]
      simp
    · intro i hi
      simp only [histBins]
      rw [if_pos hif, List.get?_map, List.get?_range (show i < 10 by omega)]
      have hne9 : ¬ (i = 10 - 1) := by omega
      simp only [Option.map_some', hne9, if_false, Nat.cast_ofNat]
    · have h9 : listMin xs + ((9 : ℚ) + 1) * ((listMax xs - listMin xs) / 10) = listMax xs := by
        ring
      simp only [histBins]
      rw [if_pos hif, List.get?_map, List.get?_range (show 9 < 10 by norm_num)]
      simp only [Option.map_some', Nat.cast_ofNat]
      norm_num [h9]
      simp only [hend10]
    · intro i hi
      rintro ⟨_, hlt2⟩
      have hic : (i : ℚ) + 1 ≤ 9 := by
        have : (i : ℚ) ≤ 8 := by exact_mod_cast Nat.le_of_lt_succ hi
        linarith
      have h1 : ((i : ℚ) + 1) * ((listMax xs - listMin xs) / 10) ≤
          9 * ((listMax xs - listMin xs) / 10) :=
        mul_le_mul_of_nonneg_right hic (le_of_lt hstep)
      linarith
    · constructor
      · linarith
      · linarith
  · intro heq
    simp [histBins, heq]

/-- C5 witness at the sample `[0, 10]`. -/
theorem c5_histogram_bins_witness :
    (histBins [0, 10]).length = 10 :=
  ((c5_histogram_bins [0, 10] (by decide)).1 (by decide)).1

/-- C7: for every successfully profiled file and every column, the missing
count plus the number of non-empty sampled values of that column equals the
sample window size `min(rowCount, 2000)`, and the unique count is at most
the number of non-empty sampled values. -/
theorem c7_missing_invariant :
    ∀ (text : String) (s : DatasetSummary), parseCSV text = Except.ok s →
      ∀ (i : Nat) (c : ColumnInfo), s.columns.get? i = some c →
        c.missing +
          (collectColumn (detectDelimiter ((nonBlankLines text).headD ""))
            (((nonBlankLines text).drop 1).take
              (min ((nonBlankLines text).drop 1).length 2000)) i).length =
          min s.rowCount 2000 ∧
        c.unique ≤
          (collectColumn (detectDelimiter ((nonBlankLines text).headD ""))
            (((nonBlankLines text).drop 1).take
              (min ((nonBlankLines text).drop 1).length 2000)) i).length := by
  intro text s hok i c hic
  simp only [parseCSV] at hok
  split at hok
  · exact absurd hok (by simp)
  · split at hok
    · exact absurd hok (by simp)
    · split at hok
      · exact absurd hok (by simp)
      · split at hok
        · exact absurd hok (by simp)
        · rw [Except.ok.injEq] at hok
          subst hok
          dsimp only at hic ⊢
          simp only [buildColumns] at hic
          rw [List.get?_map, List.enum_get?] at hic
          cases hh : (splitLine (detectDelimiter ((nonBlankLines text).headD ""))
              ((nonBlankLines text).headD "")).get? i with
          | none => rw [hh] at hic; simp at hic
          | some hname =>
            rw [hh] at hic
            simp only [Option.map_some', Option.some.injEq] at hic
            subst hic
            have hlen : (collectColumn (detectDelimiter ((nonBlankLines text).headD ""))
                (((nonBlankLines text).drop 1).take
                  (min ((nonBlankLines text).drop 1).length 2000)) i).length ≤
                min ((nonBlankLines text).drop 1).length 2000 := by
              refine le_trans (List.length_filterMap_le _ _) ?_
              rw [List.length_take]
              omega
            constructor
            · simp only [analyzeColumn]
              omega
            · simp only [analyzeColumn]
              exact (List.dedup_sublist _).length_le

/-- C7 witness at the profile of `a\n1`. -/
theorem c7_missing_invariant_witness :
    (0 : Nat) +
      (collectColumn (detectDelimiter ((nonBlankLines "a\n1").headD ""))
        (((nonBlankLines "a\n1").drop 1).take
          (min ((nonBlankLines "a\n1").drop 1).length 2000)) 0).length = min 1 2000 ∧
    (1 : Nat) ≤
      (collectColumn (detectDelimiter ((nonBlankLines "a\n1").headD ""))
        (((nonBlankLines "a\n1").drop 1).take
          (min ((nonBlankLines "a\n1").drop 1).length 2000)) 0).length :=
  c7_missing_invariant "a\n1"
    ⟨1, [⟨"a", ColType.numeric, 0, 1, some "1",
      ⟨some 1, some 1, some 1, some (1, 1, 1), some [⟨1, 1⟩], none⟩⟩],
      [[("a", some "1")]]⟩
    (by decide) 0
    ⟨"a", ColType.numeric, 0, 1, some "1",
      ⟨some 1, some 1, some 1, some (1, 1, 1), some [⟨1, 1⟩], none⟩⟩
    (by decide)

/-- C2 counterexample: on a 5-line file (4 rows after the header, all of
them sampled) with exactly one malformed row, the claimed rule rejects the
file (`1 > 0.2 * 4`), but the code accepts it — its threshold
`0.2 * min(lines, 100)` counts the header line, so it compares `1 > 1`. -/
theorem c2_integrity_counterexample :
    (nonBlankLines "a,b,c\n1,2,3\n1,2,3\n1,2,3\n1,2").length - 1 = 4 ∧
    malformedCountOf ',' (nonBlankLines "a,b,c\n1,2,3\n1,2,3\n1,2,3\n1,2") 3 = 1 ∧
    ((0.2 : ℚ) * 4 < 1) ∧
    (parseCSV "a,b,c\n1,2,3\n1,2,3\n1,2,3\n1,2").isOk = true := by
  decide

/-- C2 amended: the validator tokenizes the rows at line indices
`1 .. min(lineCount, 100) - 1` — at most 99 rows after the header, one fewer
than the source's 100-line window — and rejects exactly when the malformed
count strictly exceeds `0.2 * min(lineCount, 100)`, a threshold whose window
counts the header line; in particular on a 100-line file (99 sampled rows)
20 malformed rows are accepted and 21 are rejected. -/
theorem c2_integrity_amended :
    (∀ text : String,
      text.data.contains replacementChar = false →
      2 ≤ (nonBlankLines text).length →
      (let lines := nonBlankLines text
       let delim := detectDelimiter (lines.headD "")
       let expected := (splitLine delim (lines.headD "")).length
       ((lines.drop 1).take (min lines.length 100 - 1)).length =
           min (lines.length - 1) 99 ∧
         ((∃ m v e, parseCSV text = Except.error (ParseError.integrity m v e)) ↔
           (((min lines.length 100 : Nat) : ℚ) * 0.2 <
             (malformedCountOf delim lines expected : ℚ))))) ∧
    (parseCSV ex20Text).isOk = true ∧
    malformedCountOf ',' (nonBlankLines ex20Text) 3 = 20 ∧
    (nonBlankLines ex20Text).length = 100 ∧
    malformedCountOf ',' (nonBlankLines ex21Text) 3 = 21 ∧
    parseCSV ex21Text = Except.error (ParseError.integrity 21 100 3) := by
  refine ⟨fun text henc hlen => ⟨?_, ?_⟩, by decide, by decide, by decide, by decide, by decide⟩
  · rw [List.length_take, List.length_drop]
    omega
  · simp only [parseCSV]
    rw [if_neg (by rw [henc]; simp)]
    rw [if_neg (by omega)]
    rw [if_neg (by
      have := splitLine_length_pos (detectDelimiter ((nonBlankLines text).headD ""))
        ((nonBlankLines text).headD "")
      omega)]
    split
    · next hcond =>
      constructor
      · intro _
        exact hcond
      · intro _
        exact ⟨_, _, _, rfl⟩
    · next hcond =>
      constructor
      · rintro ⟨m, v, e, hcontra⟩
        simp at hcontra
      · intro hc
        exact absurd hc hcond

/-- C2 amended-claim witness at a clean two-line file. -/
theorem c2_integrity_amended_witness :
    (let lines := nonBlankLines "a,b\n1,2"
     let delim := detectDelimiter (lines.headD "")
     let expected := (splitLine delim (lines.headD "")).length
     ((lines.drop 1).take (min lines.length 100 - 1)).length =
         min (lines.length - 1) 99 ∧
       ((∃ m v e, parseCSV "a,b\n1,2" = Except.error (ParseError.integrity m v e)) ↔
         (((min lines.length 100 : Nat) : ℚ) * 0.2 <
           (malformedCountOf delim lines expected : ℚ)))) :=
  c2_integrity_amended.1 "a,b\n1,2" (by decide) (by decide)

/-- C8 amended: the detector returns one of the four candidates, its count
is maximal among the candidates, every candidate earlier in the scan order
`',', ';', tab, '|'` has a strictly smaller count (so ties go to the
earliest candidate, which is `','` only when `','` is among the tied
leaders), and an all-zero count yields `','`. -/
theorem c8_delimiter_amended :
    ∀ line : String,
      (detectDelimiter line = ',' ∨ detectDelimiter line = ';' ∨
        detectDelimiter line = '\t' ∨ detectDelimiter line = '|') ∧
      (countOcc ',' line ≤ countOcc (detectDelimiter line) line ∧
       countOcc ';' line ≤ countOcc (detectDelimiter line) line ∧
       countOcc '\t' line ≤ countOcc (detectDelimiter line) line ∧
       countOcc '|' line ≤ countOcc (detectDelimiter line) line) ∧
      (detectDelimiter line = ';' → countOcc ',' line < countOcc ';' line) ∧
      (detectDelimiter line = '\t' →
        countOcc ',' line < countOcc '\t' line ∧ countOcc ';' line < countOcc '\t' line) ∧
      (detectDelimiter line = '|' →
        countOcc ',' line < countOcc '|' line ∧ countOcc ';' line < countOcc '|' line ∧
        countOcc '\t' line < countOcc '|' line) ∧
      ((countOcc ',' line = 0 ∧ countOcc ';' line = 0 ∧ countOcc '\t' line = 0 ∧
        countOcc '|' line = 0) → detectDelimiter line = ',') := by
  intro line
  simp only [detectDelimiter, candidateDelims, List.foldl]
  split_ifs <;> simp_all <;> omega

/-- C8 amended-claim witness on a delimiter-free line. -/
theorem c8_delimiter_amended_witness :
    detectDelimiter "x" = ',' :=
  (c8_delimiter_amended "x").2.2.2.2.2 (by decide)

/-- C6 witness at a concrete unsorted sample. -/
theorem c6_quantile_rule_witness :
    quantilesOf [3, 1, 2] =
      ((([3, 1, 2] : List ℚ).insertionSort (· ≤ ·)).getD (([3, 1, 2] : List ℚ).length / 4) 0,
       (([3, 1, 2] : List ℚ).insertionSort (· ≤ ·)).getD (([3, 1, 2] : List ℚ).length / 2) 0,
       (([3, 1, 2] : List ℚ).insertionSort (· ≤ ·)).getD
         (3 * ([3, 1, 2] : List ℚ).length / 4) 0) :=
  c6_quantile_rule.1 [3, 1, 2]

/-- C10 witness at a concrete input. -/
theorem c10_column_detection_unreachable_witness :
    parseCSV "a,b\n1,2" ≠ Except.error ParseError.columnDetection :=
  c10_column_detection_unreachable.2 "a,b\n1,2"
